import Mathlib

/-!
Verification development for the nhc-data-parser repository.

The development shallowly embeds the ingestion pipeline of the
repository: the normalizers of `nhc_parser.py` (`parse_coordinates`,
`clean_numeric`, `parse_datetime`, `get_storm_data`) and the
upsert / history / orchestration logic of `pipeline.py`
(`update_storm_data`, `process_wallet_feed`, `process_region`, the
run-level inactive reset of `main`), over the storage model of
`models.py` (`Storm`, `StormHistory` rows kept as Lean lists).

Python strings handled character-wise are embedded as `List Char`;
floats produced by Python `float()` are embedded as exact rationals
(only their parsed decimal value matters to the pipeline); datetimes
are embedded as a timezone-naive Gregorian civil structure `Civil`
together with minute-level arithmetic (`civilToMinutes` /
`minutesToCivil`, the standard era-based civil-day algorithms).
Third-party effects (HTTP fetch, `dateutil` fuzzy parsing) enter as
explicit oracle arguments describing their outcome, exactly as the
source consumes them.
-/

namespace NHC

/-! ## Gregorian civil datetime model -/

/-- A timezone-naive civil datetime, as stored by the pipeline
(SQLite stores naive datetimes). -/
structure Civil where
  year : Int
  month : Int
  day : Int
  hour : Int
  minute : Int
deriving DecidableEq, Repr

/-- Days since 1970-01-01 of a civil date (era-based civil calendar
algorithm, floor division throughout). -/
def civilToDays (y m d : Int) : Int :=
  let y := y - (if m ≤ 2 then 1 else 0)
  let era := Int.fdiv y 400
  let yoe := y - era * 400
  let mp := Int.emod (m + 9) 12
  let doy := Int.fdiv (153 * mp + 2) 5 + d - 1
  let doe := yoe * 365 + Int.fdiv yoe 4 - Int.fdiv yoe 100 + doy
  era * 146097 + doe - 719468

/-- Civil date (year, month, day) of a count of days since 1970-01-01. -/
def daysToCivil (z0 : Int) : Int × Int × Int :=
  let z := z0 + 719468
  let era := Int.fdiv z 146097
  let doe := z - era * 146097
  let yoe := Int.fdiv (doe - Int.fdiv doe 1460 + Int.fdiv doe 36524 - Int.fdiv doe 146096) 365
  let y := yoe + era * 400
  let doy := doe - (365 * yoe + Int.fdiv yoe 4 - Int.fdiv yoe 100)
  let mp := Int.fdiv (5 * doy + 2) 153
  let d := doy - Int.fdiv (153 * mp + 2) 5 + 1
  let m := mp + (if mp < 10 then 3 else -9)
  (y + (if m ≤ 2 then 1 else 0), m, d)

/-- Minutes since the epoch of a civil datetime. -/
def civilToMinutes (c : Civil) : Int :=
  civilToDays c.year c.month c.day * 1440 + c.hour * 60 + c.minute

/-- Civil datetime of a count of minutes since the epoch. -/
def minutesToCivil (t : Int) : Civil :=
  let days := Int.fdiv t 1440
  let rem := Int.emod t 1440
  let ymd := daysToCivil days
  ⟨ymd.1, ymd.2.1, ymd.2.2, Int.fdiv rem 60, Int.emod rem 60⟩

/-- Shift a civil datetime by `k` minutes (Python `timedelta`
arithmetic; shifting by zero minutes is the identity on any datetime). -/
def addMinutes (c : Civil) (k : Int) : Civil :=
  if k = 0 then c else minutesToCivil (civilToMinutes c + k)

/-! ## Normalizers (`nhc_parser.py`) -/

/-- Whitespace characters stripped by Python `str.strip()` / `float()`
(the ASCII ones; the feeds carry ASCII text). -/
def isSpaceChar (c : Char) : Bool :=
  c = ' ' || c = '\t' || c = '\n' || c = '\r' || c = '\x0b' || c = '\x0c'

/-- Python `str.strip()` on a character list. -/
def stripChars (l : List Char) : List Char :=
  ((l.dropWhile isSpaceChar).reverse.dropWhile isSpaceChar).reverse

/-- Numeric value of a run of decimal digits. -/
def digitsVal (l : List Char) : Nat :=
  l.foldl (fun a c => 10 * a + (c.toNat - 48)) 0

/-- Exponent tail of a Python float literal: optional sign then at
least one digit, consuming the whole remainder. -/
def floatExpTail (b : ℚ) (l : List Char) : Option ℚ :=
  let se : Int × List Char :=
    match l with
    | '-' :: r => (-1, r)
    | '+' :: r => (1, r)
    | _ => (1, l)
  let ds := se.2.takeWhile Char.isDigit
  let rest := se.2.dropWhile Char.isDigit
  if ds = [] ∨ rest ≠ [] then none
  else some (b * (10 : ℚ) ^ (se.1 * (digitsVal ds : Int)))

/-- Python `float()` on a string, embedded over exact rationals:
optional surrounding whitespace, optional sign, decimal mantissa with
optional fractional part, optional exponent. A string outside this
grammar raises `ValueError` in Python, embedded as `none`. -/
def pyFloat (raw : List Char) : Option ℚ :=
  let l := stripChars raw
  let sl : ℚ × List Char :=
    match l with
    | '-' :: r => (-1, r)
    | '+' :: r => (1, r)
    | _ => (1, l)
  let sgn := sl.1
  let ip := sl.2.takeWhile Char.isDigit
  let l1 := sl.2.dropWhile Char.isDigit
  match l1 with
  | [] => if ip = [] then none else some (sgn * (digitsVal ip : ℚ))
  | '.' :: r =>
    let fp := r.takeWhile Char.isDigit
    let l2 := r.dropWhile Char.isDigit
    if ip = [] ∧ fp = [] then none
    else
      let base := sgn * ((digitsVal ip : ℚ) + (digitsVal fp : ℚ) / (10 : ℚ) ^ fp.length)
      match l2 with
      | [] => some base
      | 'e' :: r2 => floatExpTail base r2
      | 'E' :: r2 => floatExpTail base r2
      | _ => none
  | 'e' :: r2 => if ip = [] then none else floatExpTail (sgn * (digitsVal ip : ℚ)) r2
  | 'E' :: r2 => if ip = [] then none else floatExpTail (sgn * (digitsVal ip : ℚ)) r2
  | _ => none

/-- Python `str.split(",")` on a character list. -/
def splitOnComma : List Char → List (List Char)
  | [] => [[]]
  | c :: cs =>
    if c = ',' then [] :: splitOnComma cs
    else
      match splitOnComma cs with
      | t :: ts => (c :: t) :: ts
      | [] => [[c]]

/-- One coordinate token as the source cleans it:
`tok.strip().replace("°", "")` then handed to `float()`. -/
def coordToken (tok : List Char) : Option ℚ :=
  pyFloat ((stripChars tok).filter (fun c => c ≠ '°'))

/-- `parse_coordinates` of `nhc_parser.py`: guard against a missing
comma, split on commas, require exactly two tokens (a failed
two-variable unpacking raises `ValueError`, caught to `(None, None)`),
parse each token as a float (`ValueError` likewise caught). -/
def parse_coordinates (coord : List Char) : Option ℚ × Option ℚ :=
  if coord = [] ∨ ¬ ',' ∈ coord then (none, none)
  else
    match splitOnComma coord with
    | [latS, lonS] =>
      match coordToken latS, coordToken lonS with
      | some lat, some lon => (some lat, some lon)
      | _, _ => (none, none)
    | _ => (none, none)

/-- `clean_numeric` of `nhc_parser.py`: drop every non-digit character
and read the remainder as a natural number; an empty remainder (or
empty input) yields zero. -/
def clean_numeric (value : List Char) : Nat :=
  if value = [] then 0
  else
    let numbers := value.filter Char.isDigit
    if numbers = [] then 0 else digitsVal numbers

/-- Outcome of `dateutil.parser.parse(dt_str, fuzzy=True)` on the raw
text, supplied as an oracle: either a raised `ValueError` /
`AttributeError`, or parsed civil fields together with the UTC offset
in minutes when the text carried a recognizable timezone (`none` for a
naive result). A text with no year resolves to the sentinel year 1900
(the placeholder-epoch convention the source tests for). -/
inductive DtParse where
  | failure
  | ok (dt : Civil) (tzOffsetMin : Option Int)
deriving DecidableEq, Repr

/-- `parse_datetime` of `nhc_parser.py`: on a parse failure return the
current UTC time; otherwise substitute the current UTC year for the
no-year sentinel 1900, then `astimezone(pytz.UTC)` — shift the civil
fields by minus the UTC offset, a naive parse being interpreted at the
system's local offset `sysOffsetMin` — and drop the timezone (the
codomain `Civil` is timezone-naive). -/
def parse_datetime (p : DtParse) (nowUtc : Civil) (sysOffsetMin : Int) : Civil :=
  match p with
  | .failure => nowUtc
  | .ok dt off =>
    let dt1 := if dt.year = 1900 then { dt with year := nowUtc.year } else dt
    addMinutes dt1 (-(off.getD sysOffsetMin))

/-! ## Storage model (`models.py`) and extracted records -/

/-- A `storms` table row (`models.py`, class `Storm`). The surrogate
`id` and the audit columns `created_at` / `updated_at` are not
modelled; report dates are minutes since the epoch. Nullable columns
the pipeline may leave unset are `Option`s. -/
structure Storm where
  region_id : Nat
  storm_id : String
  season : Nat
  storm_name : String
  storm_type : String
  latitude : Option ℚ
  longitude : Option ℚ
  movement : String
  wind_speed : Nat
  pressure : Nat
  headline : String
  report : String
  report_link : String
  report_date : Option Int
  wallet : String
  wallet_url : Option String
  status : String
deriving DecidableEq, Repr

/-- A `storm_history` table row (`models.py`, class `StormHistory`).
The surrogate `id` and the audit column `recorded_at` are not
modelled. -/
structure StormHistory where
  region_id : Nat
  storm_id : String
  season : Nat
  storm_name : String
  storm_type : String
  latitude : Option ℚ
  longitude : Option ℚ
  movement : String
  wind_speed : Nat
  pressure : Nat
  headline : String
  report : String
  report_link : String
  report_date : Option Int
  wallet : String
  wallet_url : Option String
  status : String
deriving DecidableEq, Repr

/-- The dictionary `get_storm_data` builds for one feed item. Keys the
extractor always writes are plain fields; `wallet_url` is written only
when the wallet identifier is non-empty and `season` is never written
by the extractor (an `Option` models key presence, matching the
`'season' not in storm_data` test of `update_storm_data`; a present
falsy season — Python `0` — is also defaulted). -/
structure StormRecord where
  storm_id : String
  storm_name : String
  storm_type : String
  wallet : String
  movement : String
  headline : String
  latitude : Option ℚ
  longitude : Option ℚ
  pressure : Nat
  wind_speed : Nat
  report_date : Int
  report : String
  report_link : String
  wallet_url : Option String
  season : Option Nat
deriving DecidableEq, Repr

/-- The two pipeline tables, each a list of rows in insertion order. -/
structure DB where
  storms : List Storm
  history : List StormHistory
deriving DecidableEq, Repr

/-- `db.query(Storm).filter(Storm.storm_id == storm_id).first()`:
first row with the given storm identifier. -/
def findStorm (l : List Storm) (sid : String) : Option Storm :=
  match l with
  | [] => none
  | s :: rest => if s.storm_id = sid then some s else findStorm rest sid

/-- Replace the first row with the given storm identifier (the ORM
mutates the row object found by `first()` in place). -/
def replaceStorm (l : List Storm) (sid : String) (s' : Storm) : List Storm :=
  match l with
  | [] => []
  | s :: rest => if s.storm_id = sid then s' :: rest else s :: replaceStorm rest sid s'

/-! ## Upsert engine (`pipeline.py`, `update_storm_data`) -/

/-- The season value after the defaulting step of `update_storm_data`:
current UTC year when the record has no season key or a falsy one. -/
def seasonOf (r : StormRecord) (nowYear : Nat) : Nat :=
  match r.season with
  | none => nowYear
  | some 0 => nowYear
  | some s => s

/-- The `setattr` loop over the record dictionary applied to an
existing row — every key the dictionary carries overwrites the row
field (`status` having been set to `"active"`, `season` defaulted),
`wallet_url` only when present — followed by `storm.region_id =
region_id`. -/
def applyRecord (s : Storm) (r : StormRecord) (season : Nat) (rid : Nat) : Storm :=
  { s with
    storm_id := r.storm_id
    storm_name := r.storm_name
    storm_type := r.storm_type
    wallet := r.wallet
    movement := r.movement
    headline := r.headline
    latitude := r.latitude
    longitude := r.longitude
    pressure := r.pressure
    wind_speed := r.wind_speed
    report_date := some r.report_date
    report := r.report
    report_link := r.report_link
    wallet_url := match r.wallet_url with
      | some u => some u
      | none => s.wallet_url
    season := season
    status := "active"
    region_id := rid }

/-- `Storm(**storm_data)` for a new storm: fields absent from the
dictionary take the column default (`wallet_url` → NULL). -/
def stormFromRecord (r : StormRecord) (season : Nat) (rid : Nat) : Storm :=
  { region_id := rid
    storm_id := r.storm_id
    season := season
    storm_name := r.storm_name
    storm_type := r.storm_type
    latitude := r.latitude
    longitude := r.longitude
    movement := r.movement
    wind_speed := r.wind_speed
    pressure := r.pressure
    headline := r.headline
    report := r.report
    report_link := r.report_link
    report_date := some r.report_date
    wallet := r.wallet
    wallet_url := r.wallet_url
    status := "active" }

/-- `StormHistory(**history_data)` where `history_data` is a copy of
the record dictionary plus `region_id`: fields absent from the
dictionary take the column default (`wallet_url` → NULL), regardless
of what the current-state row holds. -/
def histFromRecord (r : StormRecord) (season : Nat) (rid : Nat) : StormHistory :=
  { region_id := rid
    storm_id := r.storm_id
    season := season
    storm_name := r.storm_name
    storm_type := r.storm_type
    latitude := r.latitude
    longitude := r.longitude
    movement := r.movement
    wind_speed := r.wind_speed
    pressure := r.pressure
    headline := r.headline
    report := r.report
    report_link := r.report_link
    report_date := some r.report_date
    wallet := r.wallet
    wallet_url := r.wallet_url
    status := "active" }

/-- Observable session events of one `update_storm_data` call: staging
the storm create/update, staging the history insert, the final
`db.commit()`, and the `db.rollback()` of the failure path. -/
inductive Ev where
  | stageStorm
  | stageHistory
  | commit
  | rollback
deriving DecidableEq, Repr

/-- Result of one `update_storm_data` call: the Python return value
(`None` or the storm entity) or a propagated exception after
rollback. -/
inductive UpdOutcome where
  | raised
  | returned (s : Option Storm)
deriving DecidableEq, Repr

/-- Full observable effect of one `update_storm_data` call. -/
structure UpdResult where
  db : DB
  res : UpdOutcome
  events : List Ev
deriving DecidableEq, Repr

/-- `update_storm_data` of `pipeline.py`. Parameters beyond the
source's: `nowYear` is `datetime.now(timezone.utc).year` at call time
and `commitOk` is the outcome of `db.commit()` (`false` = the commit
raises; the rollback then restores the pre-call state and the
exception is re-raised). A history row is staged when the storm is new
or when the stored `report_date` differs from the record's (extracted
records always carry a `report_date` key). -/
def update_storm_data (db : DB) (r : StormRecord) (rid : Nat) (nowYear : Nat)
    (commitOk : Bool) : UpdResult :=
  if r.storm_id = "" then
    { db := db, res := .returned none, events := [] }
  else
    let season := seasonOf r nowYear
    match findStorm db.storms r.storm_id with
    | some s =>
      let createHistory := s.report_date ≠ some r.report_date
      let s' := applyRecord s r season rid
      let storms' := replaceStorm db.storms r.storm_id s'
      let db' : DB :=
        if createHistory then
          { storms := storms', history := db.history ++ [histFromRecord r season rid] }
        else
          { storms := storms', history := db.history }
      let evs := [Ev.stageStorm] ++ (if createHistory then [Ev.stageHistory] else [])
      if commitOk then
        { db := db', res := .returned (some s'), events := evs ++ [Ev.commit] }
      else
        { db := db, res := .raised, events := evs ++ [Ev.rollback] }
    | none =>
      let s' := stormFromRecord r season rid
      let db' : DB :=
        { storms := db.storms ++ [s'],
          history := db.history ++ [histFromRecord r season rid] }
      if commitOk then
        { db := db', res := .returned (some s'),
          events := [Ev.stageStorm, Ev.stageHistory, Ev.commit] }
      else
        { db := db, res := .raised,
          events := [Ev.stageStorm, Ev.stageHistory, Ev.rollback] }

/-! ## Record extractor (`nhc_parser.py`, `get_storm_data`) -/

/-- One RSS item as `get_storm_data` reads it: whether a Cyclone
sub-element was found (namespaced or bare), the stripped text of each
child element it looks up (`""` when the element is absent, as
`get_element_text` returns), and the item-level description and link
texts. -/
structure RawItem where
  hasCyclone : Bool
  atcf : String
  cycloneName : String
  cycloneType : String
  wallet : String
  movement : String
  headline : String
  center : String
  pressure : String
  wind : String
  description : String
  link : String
deriving DecidableEq, Repr

/-- Lower-case a string character-wise (Python `str.lower()` on the
ASCII wallet identifiers). -/
def lowerStr (s : String) : String :=
  String.mk (s.data.map Char.toLower)

/-- The wallet-feed URL template of `get_storm_data`. -/
def walletUrlOf (wallet : String) : String :=
  "https://www.nhc.noaa.gov/nhc_" ++ lowerStr wallet ++ ".xml"

/-- `get_storm_data` of `nhc_parser.py`: `none` when the item has no
Cyclone sub-element; otherwise the record dictionary with coordinates,
numeric fields and the report date put through the normalizers. The
`dateutil` outcome for the item's datetime text enters as the oracle
`dtP` (with `nowUtc` / `sysOffsetMin` as in `parse_datetime`); the
`wallet_url` key is written only for a truthy (non-empty) wallet and
the `season` key is never written. -/
def get_storm_data (it : RawItem) (dtP : DtParse) (nowUtc : Civil)
    (sysOffsetMin : Int) : Option StormRecord :=
  if ¬ it.hasCyclone then none
  else
    let coords := parse_coordinates it.center.data
    some
      { storm_id := it.atcf
        storm_name := it.cycloneName
        storm_type := it.cycloneType
        wallet := it.wallet
        movement := it.movement
        headline := it.headline
        latitude := coords.1
        longitude := coords.2
        pressure := clean_numeric it.pressure.data
        wind_speed := clean_numeric it.wind.data
        report_date := civilToMinutes (parse_datetime dtP nowUtc sysOffsetMin)
        report := it.description
        report_link := it.link
        wallet_url := if it.wallet ≠ "" then some (walletUrlOf it.wallet) else none
        season := none }

/-! ## Feed loops and run orchestration (`pipeline.py`) -/

/-- `process_wallet_feed` of `pipeline.py`: items of the secondary
feed in order, each carrying the extracted record (`none` when
`get_storm_data` found no storm data) and the commit outcome of its
`update_storm_data` call. The loop body has no per-item handler: an
exception from `update_storm_data` reaches the function-level handler,
which logs and re-raises, so the remaining items are never processed.
The returned flag is `false` when the feed aborted that way. -/
def process_wallet_feed (db : DB) (items : List (Option StormRecord × Bool))
    (rid : Nat) (nowYear : Nat) : DB × Bool :=
  match items with
  | [] => (db, true)
  | (none, _) :: rest => process_wallet_feed db rest rid nowYear
  | (some r, commitOk) :: rest =>
    let u := update_storm_data db r rid nowYear commitOk
    match u.res with
    | .raised => (u.db, false)
    | .returned _ => process_wallet_feed u.db rest rid nowYear

/-- One item of a region's primary feed: the extracted record (`none`
when the item had no storm data), the commit outcome of its
`update_storm_data` call, and the items of its wallet feed (empty when
the storm exposes no wallet URL or the wallet fetch returned no
document). -/
structure RegionItem where
  record : Option StormRecord
  commitOk : Bool
  walletItems : List (Option StormRecord × Bool)
deriving Repr

/-- The body of the per-item loop of `process_region`: reconcile the
record, then cascade into the wallet feed when the returned storm has
a wallet URL. The whole body sits in a per-item `try`/`except` that
logs and continues, so a raised exception — from the reconcile commit
or from inside the wallet feed — leaves the loop running with the
database as the failed step left it. -/
def stepRegionItem (rid : Nat) (nowYear : Nat) (db : DB) (it : RegionItem) : DB :=
  match it.record with
  | none => db
  | some r =>
    let u := update_storm_data db r rid nowYear it.commitOk
    match u.res with
    | .raised => u.db
    | .returned none => u.db
    | .returned (some s) =>
      match s.wallet_url with
      | some _ => (process_wallet_feed u.db it.walletItems rid nowYear).1
      | none => u.db

/-- The per-item loop of `process_region` over a fetched feed. -/
def process_region (db : DB) (items : List RegionItem) (rid : Nat)
    (nowYear : Nat) : DB :=
  items.foldl (stepRegionItem rid nowYear) db

/-- The blanket reset of `main`:
`db.query(Storm).update({"status": "inactive"})` followed by a commit,
before any feed is processed. -/
def markAllInactive (db : DB) : DB :=
  { db with storms := db.storms.map (fun s => { s with status := "inactive" }) }

/-- One `update_storm_data` call of a full run, as issued from the
primary or wallet feed loops: the record, the owning region, and the
commit outcome. -/
structure Call where
  record : StormRecord
  region : Nat
  commitOk : Bool
deriving Repr

/-- A full pipeline run at the reconciliation level: the inactive
reset first, then the run's `update_storm_data` calls in program
order (failed calls leave the database unchanged by rollback, which is
exactly what `update_storm_data` models). -/
def runPipeline (db : DB) (calls : List Call) (nowYear : Nat) : DB :=
  calls.foldl (fun d c => (update_storm_data d c.record c.region nowYear c.commitOk).db)
    (markAllInactive db)

/-- A storm identifier was observed in a run: some call carries a
record with that (non-empty) identifier and a successful commit. -/
def observedB (calls : List Call) (sid : String) : Bool :=
  calls.any (fun c => c.record.storm_id == sid && c.commitOk && sid != "")

/-! ## Lemmas about lookup and in-place replacement -/

theorem findStorm_eq_none {l : List Storm} {sid : String} :
    findStorm l sid = none ↔ ∀ t ∈ l, t.storm_id ≠ sid := by
  induction l with
  | nil => simp [findStorm]
  | cons s rest ih =>
    by_cases h : s.storm_id = sid <;> simp [findStorm, h, ih]

theorem findStorm_append_none {l l' : List Storm} {sid : String}
    (h : findStorm l sid = none) :
    findStorm (l ++ l') sid = findStorm l' sid := by
  induction l with
  | nil => rfl
  | cons s rest ih =>
    by_cases hs : s.storm_id = sid
    · simp [findStorm, hs] at h
    · simp [findStorm, hs] at h ⊢
      exact ih h

theorem findStorm_replaceStorm {l : List Storm} {sid : String} {s s' : Storm}
    (hs' : s'.storm_id = sid) (h : findStorm l sid = some s) :
    findStorm (replaceStorm l sid s') sid = some s' := by
  induction l with
  | nil => simp [findStorm] at h
  | cons x rest ih =>
    by_cases hx : x.storm_id = sid
    · simp [findStorm, replaceStorm, hx, hs']
    · simp only [findStorm, replaceStorm, hx, if_false] at h ⊢
      exact ih h

theorem replaceStorm_map_id {l : List Storm} {sid : String} {s' : Storm}
    (h : s'.storm_id = sid) :
    (replaceStorm l sid s').map (fun t => t.storm_id) = l.map (fun t => t.storm_id) := by
  induction l with
  | nil => simp [replaceStorm]
  | cons x rest ih =>
    by_cases hx : x.storm_id = sid
    · simp [replaceStorm, hx, h]
    · simp [replaceStorm, hx, ih]

theorem mem_replaceStorm {l : List Storm} {sid : String} {s' t : Storm}
    (h : t ∈ replaceStorm l sid s') : t ∈ l ∨ t = s' := by
  induction l with
  | nil => simp [replaceStorm] at h
  | cons x rest ih =>
    by_cases hx : x.storm_id = sid
    · simp only [replaceStorm, hx, if_true, List.mem_cons] at h
      rcases h with h | h
      · right; exact h
      · left; exact List.mem_cons_of_mem _ h
    · simp only [replaceStorm, hx, if_false, List.mem_cons] at h
      rcases h with h | h
      · left; exact h ▸ List.mem_cons_self _ _
      · rcases ih h with h' | h'
        · left; exact List.mem_cons_of_mem _ h'
        · right; exact h'

theorem mem_replaceStorm_target {l : List Storm} {sid : String} {s' t : Storm}
    (hnd : (l.map (fun u => u.storm_id)).Nodup) (hs' : s'.storm_id = sid)
    (ht : t ∈ replaceStorm l sid s') (hid : t.storm_id = sid) : t = s' := by
  induction l with
  | nil => simp [replaceStorm] at ht
  | cons x rest ih =>
    simp only [List.map_cons, List.nodup_cons] at hnd
    by_cases hx : x.storm_id = sid
    · simp only [replaceStorm, hx, if_true, List.mem_cons] at ht
      rcases ht with ht | ht
      · exact ht
      · exfalso
        have hmem : sid ∈ rest.map (fun u => u.storm_id) :=
          List.mem_map.2 ⟨t, ht, hid⟩
        rw [hx] at hnd
        exact absurd hmem (by simpa using hnd.1)
    · simp only [replaceStorm, hx, if_false, List.mem_cons] at ht
      rcases ht with ht | ht
      · exact absurd (ht ▸ hid) hx
      · exact ih hnd.2 ht

/-! ## Case lemmas for `update_storm_data` -/

theorem upd_of_empty {db : DB} {r : StormRecord} {rid ny : Nat} {ok : Bool}
    (h : r.storm_id = "") :
    update_storm_data db r rid ny ok = ⟨db, .returned none, []⟩ := by
  simp [update_storm_data, h]

theorem upd_of_found_true {db : DB} {r : StormRecord} {rid ny : Nat} {s : Storm}
    (h : r.storm_id ≠ "") (hf : findStorm db.storms r.storm_id = some s) :
    update_storm_data db r rid ny true =
      ⟨{ storms := replaceStorm db.storms r.storm_id (applyRecord s r (seasonOf r ny) rid),
         history := if s.report_date ≠ some r.report_date then
             db.history ++ [histFromRecord r (seasonOf r ny) rid]
           else db.history },
       .returned (some (applyRecord s r (seasonOf r ny) rid)),
       [Ev.stageStorm] ++ (if s.report_date ≠ some r.report_date then [Ev.stageHistory] else [])
         ++ [Ev.commit]⟩ := by
  by_cases hrd : s.report_date = some r.report_date <;>
    simp [update_storm_data, h, hf, hrd]

theorem upd_of_found_false {db : DB} {r : StormRecord} {rid ny : Nat} {s : Storm}
    (h : r.storm_id ≠ "") (hf : findStorm db.storms r.storm_id = some s) :
    update_storm_data db r rid ny false =
      ⟨db, .raised,
       [Ev.stageStorm] ++ (if s.report_date ≠ some r.report_date then [Ev.stageHistory] else [])
         ++ [Ev.rollback]⟩ := by
  by_cases hrd : s.report_date = some r.report_date <;>
    simp [update_storm_data, h, hf, hrd]

theorem upd_of_absent_true {db : DB} {r : StormRecord} {rid ny : Nat}
    (h : r.storm_id ≠ "") (hf : findStorm db.storms r.storm_id = none) :
    update_storm_data db r rid ny true =
      ⟨{ storms := db.storms ++ [stormFromRecord r (seasonOf r ny) rid],
         history := db.history ++ [histFromRecord r (seasonOf r ny) rid] },
       .returned (some (stormFromRecord r (seasonOf r ny) rid)),
       [Ev.stageStorm, Ev.stageHistory, Ev.commit]⟩ := by
  simp [update_storm_data, h, hf]

theorem upd_of_absent_false {db : DB} {r : StormRecord} {rid ny : Nat}
    (h : r.storm_id ≠ "") (hf : findStorm db.storms r.storm_id = none) :
    update_storm_data db r rid ny false =
      ⟨db, .raised, [Ev.stageStorm, Ev.stageHistory, Ev.rollback]⟩ := by
  simp [update_storm_data, h, hf]

theorem upd_db_of_fail {db : DB} {r : StormRecord} {rid ny : Nat} :
    (update_storm_data db r rid ny false).db = db := by
  by_cases h : r.storm_id = ""
  · simp [upd_of_empty h]
  · cases hf : findStorm db.storms r.storm_id with
    | some s => simp [upd_of_found_false h hf]
    | none => simp [upd_of_absent_false h hf]

/-! ## Run-level invariants -/

theorem upd_storms_mem {db : DB} {r : StormRecord} {rid ny : Nat} {ok : Bool} {t : Storm}
    (ht : t ∈ (update_storm_data db r rid ny ok).db.storms) :
    t ∈ db.storms ∨
      (ok = true ∧ r.storm_id ≠ "" ∧ t.storm_id = r.storm_id ∧ t.status = "active") := by
  by_cases h : r.storm_id = ""
  · rw [upd_of_empty h] at ht
    exact Or.inl ht
  · cases ok with
    | false =>
      rw [show (update_storm_data db r rid ny false).db = db from upd_db_of_fail] at ht
      exact Or.inl ht
    | true =>
      cases hf : findStorm db.storms r.storm_id with
      | some s =>
        rw [upd_of_found_true h hf] at ht
        rcases mem_replaceStorm ht with h' | h'
        · exact Or.inl h'
        · exact Or.inr ⟨rfl, h, by simp [h', applyRecord], by simp [h', applyRecord]⟩
      | none =>
        rw [upd_of_absent_true h hf] at ht
        rcases List.mem_append.1 ht with h' | h'
        · exact Or.inl h'
        · have h'' : t = stormFromRecord r (seasonOf r ny) rid := by simpa using h'
          exact Or.inr ⟨rfl, h, by simp [h'', stormFromRecord], by simp [h'', stormFromRecord]⟩

theorem upd_storms_active {db : DB} {r : StormRecord} {rid ny : Nat} {t : Storm}
    (hnd : (db.storms.map (fun u => u.storm_id)).Nodup) (h : r.storm_id ≠ "")
    (ht : t ∈ (update_storm_data db r rid ny true).db.storms)
    (hid : t.storm_id = r.storm_id) : t.status = "active" := by
  cases hf : findStorm db.storms r.storm_id with
  | some s =>
    rw [upd_of_found_true h hf] at ht
    have := mem_replaceStorm_target hnd (by simp [applyRecord]) ht hid
    simp [this, applyRecord]
  | none =>
    rw [upd_of_absent_true h hf] at ht
    rcases List.mem_append.1 ht with h' | h'
    · exact absurd hid (findStorm_eq_none.1 hf t h')
    · have h'' : t = stormFromRecord r (seasonOf r ny) rid := by simpa using h'
      simp [h'', stormFromRecord]

theorem upd_nodup {db : DB} {r : StormRecord} {rid ny : Nat} {ok : Bool}
    (hnd : (db.storms.map (fun u => u.storm_id)).Nodup) :
    ((update_storm_data db r rid ny ok).db.storms.map (fun u => u.storm_id)).Nodup := by
  by_cases h : r.storm_id = ""
  · rw [upd_of_empty h]; exact hnd
  · cases ok with
    | false => rw [show (update_storm_data db r rid ny false).db = db from upd_db_of_fail]; exact hnd
    | true =>
      cases hf : findStorm db.storms r.storm_id with
      | some s =>
        rw [upd_of_found_true h hf]
        simpa [replaceStorm_map_id (show (applyRecord s r (seasonOf r ny) rid).storm_id
          = r.storm_id by simp [applyRecord])] using hnd
      | none =>
        rw [upd_of_absent_true h hf]
        simp only [List.map_append, List.map_cons, List.map_nil]
        rw [List.nodup_append]
        refine ⟨hnd, List.nodup_singleton _, ?_⟩
        intro a ha hb
        simp only [stormFromRecord, List.mem_singleton] at hb
        rcases List.mem_map.1 ha with ⟨u, hu, hua⟩
        exact findStorm_eq_none.1 hf u hu (hua.trans hb)

theorem run_foldl_status {ny : Nat} (calls : List Call) (db1 : DB)
    (hnd : (db1.storms.map (fun u => u.storm_id)).Nodup) :
    ∀ t ∈ (calls.foldl
        (fun d c => (update_storm_data d c.record c.region ny c.commitOk).db) db1).storms,
      (observedB calls t.storm_id = true → t.status = "active") ∧
      (observedB calls t.storm_id = false → t ∈ db1.storms) := by
  induction calls generalizing db1 with
  | nil =>
    intro t ht
    constructor
    · intro h; simp [observedB] at h
    · intro _; simpa using ht
  | cons c rest ih =>
    intro t ht
    set db2 := (update_storm_data db1 c.record c.region ny c.commitOk).db with hdb2
    have hnd2 : (db2.storms.map (fun u => u.storm_id)).Nodup := upd_nodup hnd
    have hfold : t ∈ (rest.foldl
        (fun d c => (update_storm_data d c.record c.region ny c.commitOk).db) db2).storms := by
      simpa using ht
    obtain ⟨ih1, ih2⟩ := ih db2 hnd2 t hfold
    have hcons : observedB (c :: rest) t.storm_id =
        ((c.record.storm_id == t.storm_id && c.commitOk && t.storm_id != "")
          || observedB rest t.storm_id) := by
      simp [observedB]
    constructor
    · intro h
      rw [hcons] at h
      rcases Bool.or_eq_true_iff.1 h with h' | h'
      · by_cases hr : observedB rest t.storm_id = true
        · exact ih1 hr
        · have hmem2 : t ∈ db2.storms := ih2 (Bool.eq_false_iff.2 hr)
          have h1 : c.record.storm_id = t.storm_id := by
            simpa using (Bool.and_eq_true_iff.1 (Bool.and_eq_true_iff.1 h').1).1
          have h2 : c.commitOk = true := by
            simpa using (Bool.and_eq_true_iff.1 (Bool.and_eq_true_iff.1 h').1).2
          have h3 : t.storm_id ≠ "" := by
            simpa using (Bool.and_eq_true_iff.1 h').2
          rw [hdb2, h2] at hmem2
          exact upd_storms_active hnd (h1 ▸ h3) hmem2 h1.symm
      · exact ih1 h'
    · intro h
      rw [hcons] at h
      have hparts := Bool.or_eq_false_iff.1 h
      have hmem2 : t ∈ db2.storms := ih2 hparts.2
      rcases upd_storms_mem (hdb2 ▸ hmem2) with h' | h'
      · exact h'
      · exfalso
        obtain ⟨hok, hne, hids, _⟩ := h'
        have : (c.record.storm_id == t.storm_id && c.commitOk && t.storm_id != "") = true := by
          simp [hids, hok, hne]
        rw [this] at hparts
        exact Bool.true_eq_false.mp hparts.1

/-! ## Sample data for concrete witnesses -/

/-- A concrete extracted record (non-empty storm identifier, wallet
present, no season key, as `get_storm_data` produces). -/
def sampleRec : StormRecord :=
  { storm_id := "AL012026"
    storm_name := "ALPHA"
    storm_type := "Hurricane"
    wallet := "AT1"
    movement := "N at 10 MPH"
    headline := "sample headline"
    latitude := some (117 / 5)
    longitude := some (-378 / 5)
    pressure := 980
    wind_speed := 100
    report_date := 200
    report := "sample report"
    report_link := "https://www.nhc.noaa.gov/text/sample"
    wallet_url := some "https://www.nhc.noaa.gov/nhc_at1.xml"
    season := none }

/-- A concrete stored Storm row for the same identifier, with an older
report date. -/
def sampleStorm : Storm :=
  { region_id := 1
    storm_id := "AL012026"
    season := 2025
    storm_name := "ALPHA"
    storm_type := "Tropical Storm"
    latitude := some 20
    longitude := some (-70)
    movement := "W at 5 MPH"
    wind_speed := 50
    pressure := 1000
    headline := "old headline"
    report := "old report"
    report_link := "https://www.nhc.noaa.gov/text/old"
    report_date := some 100
    wallet := "AT1"
    wallet_url := some "https://www.nhc.noaa.gov/nhc_at1.xml"
    status := "inactive" }

/-- A concrete database holding the sample row. -/
def sampleDB : DB := ⟨[sampleStorm], []⟩

/-! ## C1 — history written iff new storm or changed report date -/

/-- The condition under which `update_storm_data` flags a history
snapshot: no stored row for the record's identifier, or a stored
`report_date` differing from the record's. -/
def historyDue (db : DB) (r : StormRecord) : Bool :=
  match findStorm db.storms r.storm_id with
  | none => true
  | some s => decide (s.report_date ≠ some r.report_date)

/-- C1: for every successful reconciliation of an extracted record (a
record always carries a `report_date` key; its storm identifier is
non-empty), a StormHistory row is inserted if and only if no Storm row
with the record's identifier existed before or the record's
`report_date` differs from the stored one; when neither holds — in
particular when only other fields changed — the history table is left
exactly as it was. -/
theorem C1_history_iff (db : DB) (r : StormRecord) (rid ny : Nat)
    (h : r.storm_id ≠ "") :
    ((update_storm_data db r rid ny true).db.history.length = db.history.length + 1
      ↔ historyDue db r = true) ∧
    (historyDue db r = false →
      (update_storm_data db r rid ny true).db.history = db.history) ∧
    (historyDue db r = true →
      (update_storm_data db r rid ny true).db.history
        = db.history ++ [histFromRecord r (seasonOf r ny) rid]) := by
  cases hf : findStorm db.storms r.storm_id with
  | none =>
    rw [upd_of_absent_true h hf]
    refine ⟨?_, ?_, ?_⟩
    · simp [historyDue, hf]
    · intro hdue; simp [historyDue, hf] at hdue
    · intro _; rfl
  | some s =>
    rw [upd_of_found_true h hf]
    by_cases hrd : s.report_date = some r.report_date
    · refine ⟨?_, ?_, ?_⟩
      · simp [historyDue, hf, hrd]
      · intro _; simp [hrd]
      · intro hdue; simp [historyDue, hf, hrd] at hdue
    · refine ⟨?_, ?_, ?_⟩
      · simp [historyDue, hf, hrd]
      · intro hdue; simp [historyDue, hf, hrd] at hdue
      · intro _; simp [hrd]

/-- Witness for C1 at the concrete sample input (existing storm,
changed report date). -/
theorem C1_history_iff_witness :
    sampleRec.storm_id ≠ "" ∧
    (((update_storm_data sampleDB sampleRec 1 2026 true).db.history.length
        = sampleDB.history.length + 1 ↔ historyDue sampleDB sampleRec = true) ∧
     (historyDue sampleDB sampleRec = false →
       (update_storm_data sampleDB sampleRec 1 2026 true).db.history
         = sampleDB.history) ∧
     (historyDue sampleDB sampleRec = true →
       (update_storm_data sampleDB sampleRec 1 2026 true).db.history
         = sampleDB.history
           ++ [histFromRecord sampleRec (seasonOf sampleRec 2026) 1])) :=
  ⟨by decide, C1_history_iff sampleDB sampleRec 1 2026 (by decide)⟩

/-! ## C2 — new storm: one active row with region and default season,
one history row -/

/-- C2: reconciling a record whose identifier has no stored row (and is
non-empty) with a successful commit appends exactly one Storm row —
with status `"active"`, the supplied region, the record's identifier,
and the current UTC year as season when the record carries none — and
appends exactly one StormHistory row. -/
theorem C2_new_storm (db : DB) (r : StormRecord) (rid ny : Nat)
    (h : r.storm_id ≠ "") (hf : findStorm db.storms r.storm_id = none) :
    (update_storm_data db r rid ny true).db.storms
      = db.storms ++ [stormFromRecord r (seasonOf r ny) rid] ∧
    (stormFromRecord r (seasonOf r ny) rid).status = "active" ∧
    (stormFromRecord r (seasonOf r ny) rid).region_id = rid ∧
    (stormFromRecord r (seasonOf r ny) rid).storm_id = r.storm_id ∧
    (r.season = none → (stormFromRecord r (seasonOf r ny) rid).season = ny) ∧
    (update_storm_data db r rid ny true).db.history
      = db.history ++ [histFromRecord r (seasonOf r ny) rid] := by
  rw [upd_of_absent_true h hf]
  refine ⟨rfl, rfl, rfl, rfl, ?_, rfl⟩
  intro hs
  simp [stormFromRecord, seasonOf, hs]

/-- Witness for C2 at the concrete sample input over an empty
database. -/
theorem C2_new_storm_witness :
    sampleRec.storm_id ≠ "" ∧ findStorm (DB.mk [] []).storms sampleRec.storm_id = none ∧
    ((update_storm_data ⟨[], []⟩ sampleRec 1 2026 true).db.storms
       = [] ++ [stormFromRecord sampleRec (seasonOf sampleRec 2026) 1] ∧
     (stormFromRecord sampleRec (seasonOf sampleRec 2026) 1).status = "active" ∧
     (stormFromRecord sampleRec (seasonOf sampleRec 2026) 1).region_id = 1 ∧
     (stormFromRecord sampleRec (seasonOf sampleRec 2026) 1).storm_id = sampleRec.storm_id ∧
     (sampleRec.season = none →
       (stormFromRecord sampleRec (seasonOf sampleRec 2026) 1).season = 2026) ∧
     (update_storm_data ⟨[], []⟩ sampleRec 1 2026 true).db.history
       = [] ++ [histFromRecord sampleRec (seasonOf sampleRec 2026) 1]) :=
  ⟨by decide, by decide, C2_new_storm ⟨[], []⟩ sampleRec 1 2026 (by decide) (by decide)⟩

/-! ## C9 — missing or empty storm identifier: no entity, no mutation -/

/-- C9: a record with an empty (or missing, which `dict.get` turns
into a falsy value) storm identifier makes `update_storm_data` return
`None` and leave both tables untouched, with no session activity. -/
theorem C9_empty_id (db : DB) (r : StormRecord) (rid ny : Nat) (ok : Bool)
    (h : r.storm_id = "") :
    (update_storm_data db r rid ny ok).res = .returned none ∧
    (update_storm_data db r rid ny ok).db = db ∧
    (update_storm_data db r rid ny ok).events = [] := by
  rw [upd_of_empty h]
  exact ⟨rfl, rfl, rfl⟩

/-- Witness for C9 at a concrete record with an empty identifier. -/
theorem C9_empty_id_witness :
    ({ sampleRec with storm_id := "" } : StormRecord).storm_id = "" ∧
    ((update_storm_data sampleDB { sampleRec with storm_id := "" } 1 2026 true).res
        = .returned none ∧
     (update_storm_data sampleDB { sampleRec with storm_id := "" } 1 2026 true).db
        = sampleDB ∧
     (update_storm_data sampleDB { sampleRec with storm_id := "" } 1 2026 true).events
        = []) :=
  ⟨by decide, C9_empty_id sampleDB { sampleRec with storm_id := "" } 1 2026 true (by decide)⟩

/-! ## C6 — commit failure rolls back; success returns the stored
entity -/

/-- C6: for a record with a non-empty identifier, a failing commit
leaves the database exactly as before the call (in particular the
Storm and StormHistory tables are unchanged for that storm) and the
failure surfaces as a raised error; a successful commit returns the
post-update Storm entity, which is exactly the row then stored under
the record's identifier. -/
theorem C6_rollback_return (db : DB) (r : StormRecord) (rid ny : Nat)
    (h : r.storm_id ≠ "") :
    ((update_storm_data db r rid ny false).db = db ∧
     (update_storm_data db r rid ny false).res = .raised) ∧
    (∃ s2, (update_storm_data db r rid ny true).res = .returned (some s2) ∧
      findStorm (update_storm_data db r rid ny true).db.storms r.storm_id = some s2) := by
  constructor
  · refine ⟨upd_db_of_fail, ?_⟩
    cases hf : findStorm db.storms r.storm_id with
    | some s => rw [upd_of_found_false h hf]
    | none => rw [upd_of_absent_false h hf]
  · cases hf : findStorm db.storms r.storm_id with
    | some s =>
      refine ⟨applyRecord s r (seasonOf r ny) rid, ?_, ?_⟩
      · rw [upd_of_found_true h hf]
      · rw [upd_of_found_true h hf]
        exact findStorm_replaceStorm (by simp [applyRecord]) hf
    | none =>
      refine ⟨stormFromRecord r (seasonOf r ny) rid, ?_, ?_⟩
      · rw [upd_of_absent_true h hf]
      · rw [upd_of_absent_true h hf]
        have := @findStorm_append_none db.storms
          [stormFromRecord r (seasonOf r ny) rid] r.storm_id hf
        simp only [this]
        simp [findStorm, stormFromRecord]

/-- Witness for C6 at the concrete sample input. -/
theorem C6_rollback_return_witness :
    sampleRec.storm_id ≠ "" ∧
    (((update_storm_data sampleDB sampleRec 1 2026 false).db = sampleDB ∧
      (update_storm_data sampleDB sampleRec 1 2026 false).res = .raised) ∧
     (∃ s2, (update_storm_data sampleDB sampleRec 1 2026 true).res
          = .returned (some s2) ∧
       findStorm (update_storm_data sampleDB sampleRec 1 2026 true).db.storms
          sampleRec.storm_id = some s2)) :=
  ⟨by decide, C6_rollback_return sampleDB sampleRec 1 2026 (by decide)⟩

/-! ## C10 — empty wallet: no wallet_url key, stored wallet_url kept,
wallet overwritten -/

/-- C10: a record extracted from an item whose wallet identifier is
empty carries no `wallet_url` key; reconciling it against a stored row
for the same identifier leaves the stored `wallet_url` unchanged while
the stored `wallet` field is overwritten with the empty string. -/
theorem C10_empty_wallet (it : RawItem) (dtP : DtParse) (nowUtc : Civil)
    (so : Int) (r : StormRecord) (db : DB) (rid ny : Nat) (s : Storm)
    (hw : it.wallet = "") (hr : get_storm_data it dtP nowUtc so = some r)
    (hid : r.storm_id ≠ "") (hf : findStorm db.storms r.storm_id = some s) :
    r.wallet_url = none ∧
    ∃ s2, findStorm (update_storm_data db r rid ny true).db.storms r.storm_id = some s2 ∧
      s2.wallet_url = s.wallet_url ∧ s2.wallet = "" := by
  have hurl : r.wallet_url = none ∧ r.wallet = "" := by
    by_cases hc : it.hasCyclone
    · simp only [get_storm_data, hc, not_true, if_false, Option.some_inj] at hr
      constructor
      · rw [← hr]; simp [hw]
      · rw [← hr]; exact hw
    · simp [get_storm_data, hc] at hr
  refine ⟨hurl.1, applyRecord s r (seasonOf r ny) rid, ?_, ?_, ?_⟩
  · rw [upd_of_found_true hid hf]
    exact findStorm_replaceStorm (by simp [applyRecord]) hf
  · simp [applyRecord, hurl.1]
  · simp [applyRecord, hurl.2]

/-- A concrete RSS item whose wallet identifier is empty. -/
def sampleItem : RawItem :=
  { hasCyclone := true
    atcf := "AL012026"
    cycloneName := "ALPHA"
    cycloneType := "Hurricane"
    wallet := ""
    movement := "N at 10 MPH"
    headline := "h"
    center := "23.4, -75.6"
    pressure := "980 mb"
    wind := "100 mph"
    description := "d"
    link := "l" }

/-- Witness for C10 at the concrete item with an empty wallet. -/
theorem C10_empty_wallet_witness :
    sampleItem.wallet = "" ∧
    ∃ r, get_storm_data sampleItem DtParse.failure ⟨2026, 6, 15, 12, 0⟩ 0 = some r ∧
      (r.wallet_url = none ∧
       ∃ s2, findStorm (update_storm_data sampleDB r 1 2026 true).db.storms
           r.storm_id = some s2 ∧
         s2.wallet_url = sampleStorm.wallet_url ∧ s2.wallet = "") := by
  refine ⟨rfl, ?_⟩
  refine ⟨_, rfl, ?_⟩
  exact C10_empty_wallet sampleItem DtParse.failure ⟨2026, 6, 15, 12, 0⟩ 0 _
    sampleDB 1 2026 sampleStorm rfl rfl (by decide) (by decide)

/-! ## C4 — run-level active/inactive status -/

/-- C4: a full run first marks every stored Storm row inactive, and
after the run's reconciliations (primary and wallet feed calls alike,
in program order, failed commits rolling back) every row whose
identifier was successfully reconciled somewhere in the run has status
`"active"` and every row not observed has status `"inactive"`. The
stored rows are assumed to satisfy the schema's unique index on
`storm_id`. -/
theorem C4_run_status (db : DB) (calls : List Call) (ny : Nat)
    (hnd : (db.storms.map (fun u => u.storm_id)).Nodup) :
    (∀ t ∈ (markAllInactive db).storms, t.status = "inactive") ∧
    (∀ t ∈ (runPipeline db calls ny).storms,
      (observedB calls t.storm_id = true → t.status = "active") ∧
      (observedB calls t.storm_id = false → t.status = "inactive")) := by
  have hmark : ∀ t ∈ (markAllInactive db).storms, t.status = "inactive" := by
    intro t ht
    simp only [markAllInactive, List.mem_map] at ht
    obtain ⟨u, _, rfl⟩ := ht
    rfl
  refine ⟨hmark, ?_⟩
  have hnd' : ((markAllInactive db).storms.map (fun u => u.storm_id)).Nodup := by
    simpa [markAllInactive, List.map_map, Function.comp] using hnd
  intro t ht
  have h := run_foldl_status calls (markAllInactive db) hnd' t
    (by simpa [runPipeline] using ht)
  exact ⟨h.1, fun hobs => hmark t (h.2 hobs)⟩

/-- A second stored row with a distinct identifier, for run-level
witnesses. -/
def sampleStormB : Storm := { sampleStorm with storm_id := "EP022026", status := "active" }

/-- A two-row database for run-level witnesses. -/
def sampleDB2 : DB := ⟨[sampleStorm, sampleStormB], []⟩

/-- A one-call run observing only the first sample storm. -/
def sampleCalls : List Call := [⟨sampleRec, 1, true⟩]

/-- Witness for C4 at the concrete two-row database: the observed
storm ends active, the unobserved one inactive. -/
theorem C4_run_status_witness :
    (sampleDB2.storms.map (fun u => u.storm_id)).Nodup ∧
    ((∀ t ∈ (markAllInactive sampleDB2).storms, t.status = "inactive") ∧
     (∀ t ∈ (runPipeline sampleDB2 sampleCalls 2026).storms,
       (observedB sampleCalls t.storm_id = true → t.status = "active") ∧
       (observedB sampleCalls t.storm_id = false → t.status = "inactive"))) :=
  ⟨by decide, C4_run_status sampleDB2 sampleCalls 2026 (by decide)⟩

/-! ## C3 — history snapshot on a changed report date (corrected) -/

/-- The record the C3 counterexample reconciles: same storm, changed
report date, but an empty wallet — so the record dictionary carries no
`wallet_url` key. -/
def recNoWallet : StormRecord := { sampleRec with wallet := "", wallet_url := none }

/-- Counterexample to C3 as stated. Reconciling `recNoWallet` (same
storm as `sampleStorm`, `report_date` 200 against stored 100, empty
wallet) inserts exactly one StormHistory row, but that row's
`wallet_url` snapshot column is NULL while the just-committed Storm
row retains `wallet_url = some ".../nhc_at1.xml"` — the snapshot does
not equal the committed row's field values. Moreover the session
trace stages the storm update and the history insert and only then
commits once: the Storm create/update is not committed before the
history row is inserted. -/
theorem C3_counterexample :
    (update_storm_data sampleDB recNoWallet 1 2026 true).db.history.map
        (fun h => h.wallet_url) = [none] ∧
    (update_storm_data sampleDB recNoWallet 1 2026 true).db.storms.map
        (fun s => s.wallet_url) = [some "https://www.nhc.noaa.gov/nhc_at1.xml"] ∧
    (none : Option String) ≠ some "https://www.nhc.noaa.gov/nhc_at1.xml" ∧
    (update_storm_data sampleDB recNoWallet 1 2026 true).events
      = [Ev.stageStorm, Ev.stageHistory, Ev.commit] := by
  decide

/-- The snapshot columns shared by a Storm row and a StormHistory row,
minus the surrogate/audit columns and minus `wallet_url` (whose
snapshot value comes from the record alone). -/
def stormSnapshotFields (s : Storm) :
    Nat × String × Nat × String × String × Option ℚ × Option ℚ × String ×
      Nat × Nat × String × String × String × Option Int × String × String :=
  (s.region_id, s.storm_id, s.season, s.storm_name, s.storm_type, s.latitude,
   s.longitude, s.movement, s.wind_speed, s.pressure, s.headline, s.report,
   s.report_link, s.report_date, s.wallet, s.status)

/-- The same snapshot columns read off a StormHistory row. -/
def histSnapshotFields (h : StormHistory) :
    Nat × String × Nat × String × String × Option ℚ × Option ℚ × String ×
      Nat × Nat × String × String × String × Option Int × String × String :=
  (h.region_id, h.storm_id, h.season, h.storm_name, h.storm_type, h.latitude,
   h.longitude, h.movement, h.wind_speed, h.pressure, h.headline, h.report,
   h.report_link, h.report_date, h.wallet, h.status)

/-- C3 (amended): for an existing storm with a changed `report_date`
and a successful commit, exactly one StormHistory row is appended; its
snapshot agrees with the just-committed Storm row on every
record-carried field (everything but `wallet_url`), carries the
supplied `region_id`, and takes `wallet_url` from the record alone —
when the record has no `wallet_url` key the snapshot column is NULL
while the Storm row keeps its previous value. The storm update and
the history insert are staged together and covered by a single
commit; no commit precedes the history insert. -/
theorem C3_amended (db : DB) (r : StormRecord) (rid ny : Nat) (s : Storm)
    (h : r.storm_id ≠ "") (hf : findStorm db.storms r.storm_id = some s)
    (hrd : s.report_date ≠ some r.report_date) :
    (update_storm_data db r rid ny true).db.history
      = db.history ++ [histFromRecord r (seasonOf r ny) rid] ∧
    (∃ s2, findStorm (update_storm_data db r rid ny true).db.storms r.storm_id
        = some s2 ∧
      histSnapshotFields (histFromRecord r (seasonOf r ny) rid)
        = stormSnapshotFields s2 ∧
      (histFromRecord r (seasonOf r ny) rid).wallet_url = r.wallet_url ∧
      (r.wallet_url = none → s2.wallet_url = s.wallet_url)) ∧
    (update_storm_data db r rid ny true).events
      = [Ev.stageStorm, Ev.stageHistory, Ev.commit] := by
  rw [upd_of_found_true h hf]
  refine ⟨by simp [hrd], ?_, by simp [hrd]⟩
  refine ⟨applyRecord s r (seasonOf r ny) rid, ?_, ?_, ?_, ?_⟩
  · exact findStorm_replaceStorm (by simp [applyRecord]) hf
  · simp [histSnapshotFields, stormSnapshotFields, histFromRecord, applyRecord]
  · rfl
  · intro hwu; simp [applyRecord, hwu]

/-- Witness for the amended C3 at the concrete sample input. -/
theorem C3_amended_witness :
    sampleRec.storm_id ≠ "" ∧
    findStorm sampleDB.storms sampleRec.storm_id = some sampleStorm ∧
    sampleStorm.report_date ≠ some sampleRec.report_date ∧
    ((update_storm_data sampleDB sampleRec 1 2026 true).db.history
       = sampleDB.history ++ [histFromRecord sampleRec (seasonOf sampleRec 2026) 1] ∧
     (∃ s2, findStorm (update_storm_data sampleDB sampleRec 1 2026 true).db.storms
         sampleRec.storm_id = some s2 ∧
       histSnapshotFields (histFromRecord sampleRec (seasonOf sampleRec 2026) 1)
         = stormSnapshotFields s2 ∧
       (histFromRecord sampleRec (seasonOf sampleRec 2026) 1).wallet_url
         = sampleRec.wallet_url ∧
       (sampleRec.wallet_url = none → s2.wallet_url = sampleStorm.wallet_url)) ∧
     (update_storm_data sampleDB sampleRec 1 2026 true).events
       = [Ev.stageStorm, Ev.stageHistory, Ev.commit]) :=
  ⟨by decide, by decide, by decide,
   C3_amended sampleDB sampleRec 1 2026 sampleStorm (by decide) (by decide) (by decide)⟩

/-! ## C5 — per-item error isolation (corrected) -/

/-- Counterexample to C5 as stated. A wallet feed holds two items:
the first fails at commit, the second is a valid record for a second
storm whose own reconciliation would succeed (shown by the last
conjunct). The wallet feed loop has no per-item handler, so the
failure aborts the feed: the run's database is left empty and the
sibling item's storm is never stored, contradicting the claim that a
failing item never prevents sibling items of the same feed from being
processed. -/
theorem C5_counterexample :
    process_wallet_feed ⟨[], []⟩
        [(some sampleRec, false),
         (some { sampleRec with storm_id := "EP022026" }, true)] 1 2026
      = (⟨[], []⟩, false) ∧
    findStorm (process_wallet_feed ⟨[], []⟩
        [(some sampleRec, false),
         (some { sampleRec with storm_id := "EP022026" }, true)] 1 2026).1.storms
      "EP022026" = none ∧
    (update_storm_data ⟨[], []⟩ { sampleRec with storm_id := "EP022026" }
        1 2026 true).db.storms.map (fun s => s.storm_id) = ["EP022026"] := by
  decide

/-- C5 (amended): per-item isolation holds for the primary region
feed loop — an item whose reconciliation commit fails (and with it any
failure escaping its wallet cascade) is caught at the item-loop
boundary and the remaining primary items are processed from an
unchanged database. It does not hold for the wallet feed loop: a
failing wallet item ends the wallet feed at once with the database as
the rollback left it, skipping every remaining wallet item; the error
then surfaces to the enclosing primary item's handler. -/
theorem C5_amended (db : DB) (rest : List RegionItem) (rid ny : Nat)
    (r : StormRecord) (w : List (Option StormRecord × Bool))
    (h : r.storm_id ≠ "") :
    process_region db
        ({ record := some r, commitOk := false, walletItems := w } :: rest) rid ny
      = process_region db rest rid ny ∧
    (∀ wrest, process_wallet_feed db ((some r, false) :: wrest) rid ny = (db, false)) := by
  have hres : (update_storm_data db r rid ny false).res = .raised := by
    cases hf : findStorm db.storms r.storm_id with
    | some s => rw [upd_of_found_false h hf]
    | none => rw [upd_of_absent_false h hf]
  constructor
  · show List.foldl (stepRegionItem rid ny)
      (stepRegionItem rid ny db { record := some r, commitOk := false, walletItems := w })
      rest = process_region db rest rid ny
    have hstep : stepRegionItem rid ny db
        { record := some r, commitOk := false, walletItems := w } = db := by
      simp only [stepRegionItem, hres]
      exact upd_db_of_fail
    rw [hstep]; rfl
  · intro wrest
    simp only [process_wallet_feed, hres]
    rw [upd_db_of_fail]

/-- Witness for the amended C5 at a concrete failing item. -/
theorem C5_amended_witness :
    sampleRec.storm_id ≠ "" ∧
    (process_region sampleDB
         ({ record := some sampleRec, commitOk := false, walletItems := [] } :: []) 1 2026
       = process_region sampleDB [] 1 2026 ∧
     (∀ wrest, process_wallet_feed sampleDB ((some sampleRec, false) :: wrest) 1 2026
       = (sampleDB, false))) :=
  ⟨by decide, C5_amended sampleDB [] 1 2026 sampleRec [] (by decide)⟩

/-! ## C7 — fuzzy datetime parsing (corrected) -/

/-- Counterexample to C7 as stated. The oracle value embeds a parse
of a text with no year (sentinel year 1900) carrying a −05:00 offset
and the civil fields Dec 31, 23:00 — e.g. a bulletin line like
"1100 PM EST Dec 31". With the current UTC time 2026-06-15 12:00 the
source substitutes year 2026, then converts to UTC by shifting +300
minutes, landing on 2027-01-01 04:00: the returned year is 2027, not
the current UTC year 2026. -/
theorem C7_counterexample :
    parse_datetime (DtParse.ok ⟨1900, 12, 31, 23, 0⟩ (some (-300)))
        ⟨2026, 6, 15, 12, 0⟩ 0
      = ⟨2027, 1, 1, 4, 0⟩ ∧
    (⟨2026, 6, 15, 12, 0⟩ : Civil).year = 2026 ∧ (2027 : Int) ≠ 2026 := by
  decide

/-- C7 (amended): the parser returns the current UTC time on any
caught parse failure, and on success returns the parsed civil value
with the no-year sentinel 1900 replaced by the current UTC year before
the UTC conversion; the result is timezone-naive by construction. The
result's year equals the current UTC year whenever the effective UTC
offset of the parse is zero (more generally, whenever the UTC shift
does not cross a year boundary — a late-December text in a zone west of UTC
can land in the next year, as the counterexample shows). -/
theorem C7_amended (dt : Civil) (off : Option Int) (nowUtc : Civil) (so : Int)
    (hy : dt.year = 1900) (ho : off.getD so = 0) :
    parse_datetime DtParse.failure nowUtc so = nowUtc ∧
    parse_datetime (DtParse.ok dt off) nowUtc so = { dt with year := nowUtc.year } ∧
    (parse_datetime (DtParse.ok dt off) nowUtc so).year = nowUtc.year := by
  have h2 : parse_datetime (DtParse.ok dt off) nowUtc so
      = { dt with year := nowUtc.year } := by
    simp [parse_datetime, hy, ho, addMinutes]
  exact ⟨rfl, h2, by rw [h2]⟩

/-- Witness for the amended C7 at a concrete no-year parse with a
zero UTC offset. -/
theorem C7_amended_witness :
    (⟨1900, 6, 10, 11, 0⟩ : Civil).year = 1900 ∧
    (some (0 : Int)).getD 123 = 0 ∧
    (parse_datetime DtParse.failure ⟨2026, 6, 15, 12, 0⟩ 123 = ⟨2026, 6, 15, 12, 0⟩ ∧
     parse_datetime (DtParse.ok ⟨1900, 6, 10, 11, 0⟩ (some 0)) ⟨2026, 6, 15, 12, 0⟩ 123
       = { (⟨1900, 6, 10, 11, 0⟩ : Civil) with year := (⟨2026, 6, 15, 12, 0⟩ : Civil).year } ∧
     (parse_datetime (DtParse.ok ⟨1900, 6, 10, 11, 0⟩ (some 0)) ⟨2026, 6, 15, 12, 0⟩ 123).year
       = (⟨2026, 6, 15, 12, 0⟩ : Civil).year) :=
  ⟨by decide, by decide,
   C7_amended ⟨1900, 6, 10, 11, 0⟩ (some 0) ⟨2026, 6, 15, 12, 0⟩ 123 (by decide) (by decide)⟩

/-! ## C8 — coordinate parsing -/

theorem splitOnComma_no_comma {t : List Char} (h : ',' ∉ t) :
    splitOnComma t = [t] := by
  induction t with
  | nil => rfl
  | cons c cs ih =>
    simp only [List.mem_cons, not_or] at h
    have hc : ¬ c = ',' := fun hcc => h.1 hcc.symm
    simp [splitOnComma, hc, ih h.2]

theorem splitOnComma_append {t1 t2 : List Char} (h : ',' ∉ t1) :
    splitOnComma (t1 ++ ',' :: t2) = t1 :: splitOnComma t2 := by
  induction t1 with
  | nil => simp [splitOnComma]
  | cons c cs ih =>
    simp only [List.mem_cons, not_or] at h
    have hc : ¬ c = ',' := fun hcc => h.1 hcc.symm
    simp [splitOnComma, hc, ih h.2]

/-- C8: for a coordinate string made of two comma-separated tokens,
when both tokens — stripped and with degree symbols removed — parse as
numbers the parser returns exactly those two values; a string without
a comma yields `(none, none)`; and a token failing to parse as a
number yields `(none, none)` without raising. -/
theorem C8_parse_coordinates (t1 t2 s : List Char) (a b : ℚ)
    (h1 : ',' ∉ t1) (h2 : ',' ∉ t2) :
    (coordToken t1 = some a → coordToken t2 = some b →
      parse_coordinates (t1 ++ ',' :: t2) = (some a, some b)) ∧
    (',' ∉ s → parse_coordinates s = (none, none)) ∧
    ((coordToken t1 = none ∨ coordToken t2 = none) →
      parse_coordinates (t1 ++ ',' :: t2) = (none, none)) := by
  have hmem : ',' ∈ t1 ++ ',' :: t2 :=
    List.mem_append.2 (Or.inr (List.mem_cons_self _ _))
  have hcond : ¬(t1 ++ ',' :: t2 = [] ∨ ¬ ',' ∈ t1 ++ ',' :: t2) := by
    simp [hmem, List.ne_nil_of_mem hmem]
  have hsplit : splitOnComma (t1 ++ ',' :: t2) = [t1, t2] := by
    rw [splitOnComma_append h1, splitOnComma_no_comma h2]
  refine ⟨?_, ?_, ?_⟩
  · intro ha hb
    simp only [parse_coordinates]
    rw [if_neg hcond, hsplit]
    simp [ha, hb]
  · intro hs
    by_cases hse : s = []
    · simp [parse_coordinates, hse]
    · simp [parse_coordinates, hse, hs]
  · intro hno
    simp only [parse_coordinates]
    rw [if_neg hcond, hsplit]
    rcases hno with hno | hno
    · simp [hno]
    · rcases hb1 : coordToken t1 with _ | v <;> simp [hno, hb1]

/-- Witness for C8 at concrete coordinate strings: the string
"23.4, -75.6°" parses to the pair (23.4, −75.6); "garbage" (no comma)
and a non-numeric token both yield `(none, none)`. -/
theorem C8_parse_coordinates_witness :
    ',' ∉ "23.4".data ∧ ',' ∉ " -75.6°".data ∧
    ((coordToken "23.4".data = some (117 / 5) →
        coordToken " -75.6°".data = some (-378 / 5) →
        parse_coordinates ("23.4".data ++ ',' :: " -75.6°".data)
          = (some (117 / 5), some (-378 / 5))) ∧
     (',' ∉ "garbage".data → parse_coordinates "garbage".data = (none, none)) ∧
     ((coordToken "23.4".data = none ∨ coordToken " -75.6°".data = none) →
        parse_coordinates ("23.4".data ++ ',' :: " -75.6°".data) = (none, none))) :=
  ⟨by decide, by decide,
   C8_parse_coordinates "23.4".data " -75.6°".data "garbage".data
     (117 / 5) (-378 / 5) (by decide) (by decide)⟩

end NHC
